import Mathlib

/-!
Verification development for the ossfs repository (an OSS object-store
filesystem adapter).  Paths and keys are modelled as `List Char`; the
functions below are shallow embeddings of the corresponding Python
functions of `src/ossfs/base.py`, `src/ossfs/core.py`, `src/ossfs/file.py`
and `src/ossfs/exceptions.py`.
-/

/-- Characters of the literal `"oss://"` tested by
`BaseOSSFileSystem._strip_protocol` (base.py line 141). -/
def ossSchemeLit : List Char := ['o', 's', 's', ':', '/', '/']

/-- Characters of the literal `"https://"` (start of the endpoint-URL regex
`https?://...` of base.py line 144, with the optional `s` present). -/
def httpsLit : List Char := ['h', 't', 't', 'p', 's', ':', '/', '/']

/-- Characters of the literal `"http://"` (the regex alternative without `s`). -/
def httpLit : List Char := ['h', 't', 't', 'p', ':', '/', '/']

/-- Characters of the literal `"oss"` opening the `endpoint` group of the regex. -/
def ossLit : List Char := ['o', 's', 's']

/-- Characters of the literal `"aliyuncs.com"` closing the `endpoint` group
of the regex (12 characters). -/
def aliyuncsLit : List Char := ['a', 'l', 'i', 'y', 'u', 'n', 'c', 's', '.', 'c', 'o', 'm']

/-- The `https?://` part of the endpoint regex: strips the scheme of the
matched URL, longest alternative first (regex alternation on the optional `s`). -/
def stripHttpScheme (s : List Char) : Option (List Char) :=
  if httpsLit.isPrefixOf s then some (s.drop 8)
  else if httpLit.isPrefixOf s then some (s.drop 7)
  else none

/-- One candidate split of the regex `oss(.+)aliyuncs\.com(/.+)` inside the
first line: `i` is the length taken by the greedy `.+` of the `endpoint`
group; it must be at least 1, be followed by the literal `aliyuncs.com`,
and the remainder (the `path` group) must be `/` followed by at least one
character. -/
def okSplit (t : List Char) (i : Nat) : Bool :=
  decide (1 ≤ i) && aliyuncsLit.isPrefixOf (t.drop i)
    && ['/'].isPrefixOf (t.drop (i + 12)) && decide (2 ≤ (t.drop (i + 12)).length)

/-- The anchored regex match of base.py line 144,
`re.compile(r"https?://(?P<endpoint>oss.+aliyuncs\.com)(?P<path>/.+)").match`,
returning the `path` group when the match succeeds.  Since `.` never matches
a newline, every group lies within the first line; the greedy `.+` of the
`endpoint` group takes the largest admissible length (`max?`), and the greedy
`.+` of the `path` group extends to the end of that line. -/
def matchEndpointUrl (s : List Char) : Option (List Char) :=
  match stripHttpScheme s with
  | none => none
  | some after =>
    let line := after.takeWhile (fun c => c ≠ '\n')
    if ossLit.isPrefixOf line then
      let t := line.drop 3
      match ((List.range (t.length + 1)).filter (okSplit t)).max? with
      | some i => some (t.drop (i + 12))
      | none => none
    else none

/-- The fsspec `AbstractFileSystem.root_marker`, which is the empty string. -/
def root_marker : List Char := []

/-- First step of `_strip_protocol` (base.py lines 141-142): when the path
starts with `"oss://"`, drop the first 5 characters (`path_string[5:]`,
keeping the second slash). -/
def stripOssScheme (p : List Char) : List Char :=
  if ossSchemeLit.isPrefixOf p then p.drop 5 else p

/-- Second step of `_strip_protocol` (base.py lines 144-147): when the
endpoint-URL regex matches, replace the string by the `path` group. -/
def applyEndpointMatch (s : List Char) : List Char :=
  match matchEndpointUrl s with
  | some q => q
  | none => s

/-- Embeds `BaseOSSFileSystem._strip_protocol` (base.py lines 118-148) for a
single string path: drop a leading `"oss://"` scheme, then replace an
endpoint-URL form by the `path` group of the regex, and return the root
marker for an empty result (`path_string or cls.root_marker`). -/
def strip_protocol (p : List Char) : List Char :=
  if applyEndpointMatch (stripOssScheme p) = [] then root_marker
  else applyEndpointMatch (stripOssScheme p)

/-- Embeds `BaseOSSFileSystem.split_path` (base.py lines 150-171): strip the
protocol, strip leading slashes, and split at the first remaining slash into
the bucket name and the object key (`path.split("/", 1)`). -/
def split_path (p : List Char) : List Char × List Char :=
  let path := (strip_protocol p).dropWhile (fun c => c = '/')
  if '/' ∈ path then
    (path.takeWhile (fun c => c ≠ '/'), (path.dropWhile (fun c => c ≠ '/')).drop 1)
  else (path, [])

example : strip_protocol "oss://mybucket/myobject".toList = "/mybucket/myobject".toList := by
  decide

example :
    strip_protocol "http://oss-cn-hangzhou.aliyuncs.com/mybucket/myobject".toList
      = "/mybucket/myobject".toList := by
  decide

example : split_path "/mybucket/path/to/file".toList
    = ("mybucket".toList, "path/to/file".toList) := by
  decide

theorem matchEndpointUrl_starts_slash {s p : List Char}
    (h : matchEndpointUrl s = some p) : ∃ r, p = '/' :: r := by
  unfold matchEndpointUrl at h
  cases hscheme : stripHttpScheme s with
  | none => rw [hscheme] at h; exact absurd h (by simp)
  | some after =>
    rw [hscheme] at h
    simp only at h
    split at h
    · split at h
      · rename_i i hmax
        obtain ⟨hp, hok⟩ :=
          List.mem_filter.mp (List.max?_mem (fun a b => max_choice a b) hmax)
        simp only [okSplit, Bool.and_eq_true, decide_eq_true_eq] at hok
        obtain ⟨⟨⟨_, _⟩, hslash⟩, hlen⟩ := hok
        obtain ⟨t2, ht2⟩ := List.isPrefixOf_iff_prefix.mp hslash
        injection h with h
        refine ⟨t2, ?_⟩
        rw [← h, ← ht2]
        simp
      · exact absurd h (by simp)
    · exact absurd h (by simp)

theorem stripHttpScheme_slash (r : List Char) : stripHttpScheme ('/' :: r) = none := by
  unfold stripHttpScheme
  rw [if_neg, if_neg] <;> simp [httpLit, httpsLit, List.isPrefixOf]

theorem matchEndpointUrl_slash (r : List Char) : matchEndpointUrl ('/' :: r) = none := by
  unfold matchEndpointUrl
  rw [stripHttpScheme_slash]

theorem applyEndpointMatch_slash (r : List Char) :
    applyEndpointMatch ('/' :: r) = '/' :: r := by
  unfold applyEndpointMatch
  rw [matchEndpointUrl_slash]

theorem stripOssScheme_slash (r : List Char) : stripOssScheme ('/' :: r) = '/' :: r := by
  unfold stripOssScheme
  rw [if_neg]
  simp [ossSchemeLit, List.isPrefixOf]

theorem strip_protocol_slash (r : List Char) : strip_protocol ('/' :: r) = '/' :: r := by
  unfold strip_protocol
  rw [stripOssScheme_slash, applyEndpointMatch_slash]
  simp

theorem strip_protocol_shape (p : List Char) :
    strip_protocol p = p ∨ ∃ r, strip_protocol p = '/' :: r := by
  by_cases hoss : ossSchemeLit.isPrefixOf p
  · right
    obtain ⟨t, ht⟩ := List.isPrefixOf_iff_prefix.mp hoss
    have hstep : stripOssScheme p = '/' :: t := by
      unfold stripOssScheme
      rw [if_pos hoss, ← ht]
      simp [ossSchemeLit]
    refine ⟨t, ?_⟩
    unfold strip_protocol
    rw [hstep, applyEndpointMatch_slash]
    simp
  · cases hm : matchEndpointUrl p with
    | some q =>
      obtain ⟨r, hr⟩ := matchEndpointUrl_starts_slash hm
      right
      refine ⟨r, ?_⟩
      unfold strip_protocol stripOssScheme applyEndpointMatch
      rw [if_neg hoss, hm, hr]
      simp
    | none =>
      left
      unfold strip_protocol stripOssScheme applyEndpointMatch
      rw [if_neg hoss, hm]
      by_cases hnil : p = []
      · simp [hnil, root_marker]
      · simp [hnil]

theorem strip_protocol_idem (p : List Char) :
    strip_protocol (strip_protocol p) = strip_protocol p := by
  rcases strip_protocol_shape p with h | ⟨r, h⟩
  · rw [h]
    exact h
  · rw [h, strip_protocol_slash]

/-- C8: for every path (bare, scheme-prefixed, or endpoint-URL form),
resolving the normalized form gives the same (container, key) pair as
resolving the path directly: `split_path (strip_protocol P) = split_path P`
and `strip_protocol` is idempotent. -/
theorem claim_C8_normalization_idempotent (p : List Char) :
    split_path (strip_protocol p) = split_path p ∧
      strip_protocol (strip_protocol p) = strip_protocol p := by
  refine ⟨?_, strip_protocol_idem p⟩
  unfold split_path
  rw [strip_protocol_idem]

/-- Embeds `OSSFile._fetch_range` (file.py lines 49-61) over an object of
known size (`self.size`): the start is clamped to at least 0 and the end to
at most the size; for an empty clamped span, or a start at or beyond the
size, the function returns the empty byte string with no backend range
request (modelled as `none`); otherwise it issues
`fs.get_object(path, start, end)` with the clamped pair (modelled as
`some (start, end)`).  No branch raises. -/
def fetch_range (size : Nat) (start e : Int) : Option (Int × Int) :=
  if max start 0 ≥ min (size : Int) e ∨ max start 0 ≥ (size : Int) then none
  else some (max start 0, min (size : Int) e)

/-- C4: `_fetch_range` clamps `start` to at least 0 and `end` to at most the
object size, and returns the empty byte string (no backend request, no
exception) exactly when the clamped span is empty or the clamped start is at
or beyond the object size; any issued backend request carries the clamped
in-range pair. -/
theorem claim_C4_fetch_range (size : Nat) (start e : Int) :
    (fetch_range size start e = none ↔
      max start 0 ≥ min (size : Int) e ∨ max start 0 ≥ (size : Int)) ∧
    (∀ a b : Int, fetch_range size start e = some (a, b) →
      a = max start 0 ∧ b = min (size : Int) e ∧
        0 ≤ a ∧ b ≤ (size : Int) ∧ a < b ∧ a < (size : Int)) := by
  constructor
  · unfold fetch_range
    split
    · simp_all
    · simp_all
  · intro a b h
    unfold fetch_range at h
    split at h
    · exact absurd h (by simp)
    · rename_i hcond
      injection h with h
      injection h with h1 h2
      push_neg at hcond
      refine ⟨h1.symm, h2.symm, ?_, ?_, ?_, ?_⟩ <;> omega

theorem claim_C4_witness :
    fetch_range 10 (-5) 20 = some (0, 10) ∧
      ((0 : Int) = max (-5) 0 ∧ (10 : Int) = min ((10 : Nat) : Int) 20 ∧
        (0 : Int) ≤ 0 ∧ (10 : Int) ≤ ((10 : Nat) : Int) ∧ (0 : Int) < 10 ∧
        (0 : Int) < ((10 : Nat) : Int)) :=
  ⟨by decide, (claim_C4_fetch_range 10 (-5) 20).2 0 10 (by decide)⟩

/-- The possible continuations of `OSSFileSystem.find` after its argument
validation (core.py lines 310-328): raise the client-side `ValueError`, run
the prefix-filtered flat listing (`_ls_dir` with empty delimiter, a backend
call), or run the walk-based traversal (backend calls through `ls`). -/
inductive FindAction where
  | raiseValueError
  | filteredListing
  | walkTraversal
deriving DecidableEq

/-- Python truthiness of the `maxdepth` argument (`None` or an integer):
truthy exactly when it is a nonzero integer. -/
def truthyInt : Option Int → Bool
  | none => false
  | some n => decide (n ≠ 0)

/-- Python truthiness of an optional string argument (such as the popped
`prefix` keyword): truthy exactly when present and nonempty. -/
def truthyChars : Option (List Char) → Bool
  | none => false
  | some s => decide (s ≠ [])

/-- Embeds the dispatch of `OSSFileSystem.find` (core.py lines 310-328, and
the identical condition of `BaseOSSFileSystem._verify_find_arguments`,
base.py lines 206-210): `if (withdirs or maxdepth) and prefix: raise
ValueError(...)`, evaluated with Python truthiness, before any backend call;
otherwise a truthy prefix selects the flat filtered listing and anything
else the walk. -/
def find_dispatch (withdirs : Bool) (maxdepth : Option Int)
    (pfx : Option (List Char)) : FindAction :=
  if (withdirs || truthyInt maxdepth) && truthyChars pfx then .raiseValueError
  else if truthyChars pfx then .filteredListing
  else .walkTraversal

/-- C7 counterexample: with a non-`None` maxdepth of 0, `withdirs=False` and
the non-empty prefix `"a"`, `find` does not raise the client-side
`ValueError` (Python truthiness of `maxdepth=0` is false); it proceeds to
the backend-calling filtered listing, contradicting the claim that every
non-`None` maxdepth combined with a non-empty prefix fails client-side. -/
theorem claim_C7_counterexample :
    find_dispatch false (some 0) (some ['a']) = FindAction.filteredListing ∧
      ¬ find_dispatch false (some 0) (some ['a']) = FindAction.raiseValueError := by
  constructor
  · decide
  · decide

/-- C7 amended: `find` fails with the client-side `ValueError` before any
backend call exactly when a truthy (non-empty) prefix filter is combined
with `withdirs=True` or a truthy (non-`None` and nonzero) maxdepth. -/
theorem claim_C7_amended (withdirs : Bool) (maxdepth : Option Int)
    (pfx : Option (List Char)) :
    find_dispatch withdirs maxdepth pfx = FindAction.raiseValueError ↔
      ((withdirs = true ∨ truthyInt maxdepth = true) ∧ truthyChars pfx = true) := by
  unfold find_dispatch
  constructor
  · intro h
    split at h
    · rename_i hc
      simp only [Bool.and_eq_true, Bool.or_eq_true] at hc
      exact hc
    · split at h <;> simp_all
  · intro ⟨h1, h2⟩
    rw [if_pos]
    simp only [Bool.and_eq_true, Bool.or_eq_true]
    exact ⟨h1, h2⟩

/-- One fsspec file-info dictionary as produced by the listing code
(core.py `_ls_bucket`, `_ls_object`, `_get_object_info_list`): the fields a
claim observes are the `name`, the mirrored `Key`, the entry kind
(`type` being `"file"` or `"directory"`), and the `size`. -/
structure Entry where
  name : List Char
  key : List Char
  isDir : Bool
  size : Nat
deriving DecidableEq

/-- The fsspec `dircache` as used by core.py: a mapping from normalized
directory path (no leading slash) to the cached listing of immediate
children.  Modelled from the spec: the container itself is provided by the
generic filesystem interface (out of src); per spec section 3 it is a plain
mapping with explicit invalidation and no expiry. -/
abbrev DirCache := List (List Char × List Entry)

/-- Mapping lookup in an association list (`self.dircache[...]` and the
`norm_path not in self.dircache` test; also reused for the object store and
the heap of the later models). -/
def getC {κ α : Type} [DecidableEq κ] (k : κ) (c : List (κ × α)) : Option α :=
  match c with
  | [] => none
  | (k', v) :: rest => if k' = k then some v else getC k rest

/-- Removal of one key (`self.dircache.pop(norm_path, None)`). -/
def popC {κ α : Type} [DecidableEq κ] (k : κ) (c : List (κ × α)) : List (κ × α) :=
  c.filter (fun e => decide (e.1 ≠ k))

/-- Insertion under one key (`self.dircache[norm_path] = ...`). -/
def putC {κ α : Type} [DecidableEq κ] (k : κ) (v : α) (c : List (κ × α)) : List (κ × α) :=
  (k, v) :: popC k c

/-- Everything before the last slash (`path.rsplit("/", 1)[0]`). -/
def before_last_slash (q : List Char) : List Char :=
  ((q.reverse.dropWhile (fun c => c ≠ '/')).drop 1).reverse

/-- Modelled from the spec: `AbstractFileSystem._parent` of the generic
filesystem-interface collaborator (fsspec) is outside src; the spec
(sections 2-3) has invalidation bubble to ancestor paths, with the empty
root marker, so the parent of a path is the protocol-stripped path with its
last slash-separated segment removed, and the root marker when no slash
remains. -/
def parent_fs (p : List Char) : List Char :=
  if '/' ∈ strip_protocol p then before_last_slash (strip_protocol p) else root_marker

theorem length_matchEndpointUrl_le {s q : List Char}
    (h : matchEndpointUrl s = some q) : q.length ≤ s.length := by
  unfold matchEndpointUrl at h
  cases hscheme : stripHttpScheme s with
  | none => rw [hscheme] at h; exact absurd h (by simp)
  | some after =>
    have hafter : after.length ≤ s.length := by
      unfold stripHttpScheme at hscheme
      split at hscheme
      · injection hscheme with hscheme
        rw [← hscheme]
        simp [List.length_drop]
      · split at hscheme
        · injection hscheme with hscheme
          rw [← hscheme]
          simp [List.length_drop]
        · exact absurd hscheme (by simp)
    rw [hscheme] at h
    simp only at h
    split at h
    · split at h
      · rename_i i _
        injection h with h
        rw [← h]
        have e1 : (((after.takeWhile (fun c => c ≠ '\n')).drop 3).drop (i + 12)).length
            ≤ (after.takeWhile (fun c => c ≠ '\n')).length := by
          simp only [List.length_drop]
          omega
        have e2 : (after.takeWhile (fun c => c ≠ '\n')).length ≤ after.length :=
          (List.takeWhile_sublist _).length_le
        omega
      · exact absurd h (by simp)
    · exact absurd h (by simp)

theorem length_strip_protocol_le (p : List Char) :
    (strip_protocol p).length ≤ p.length := by
  have h1 : (stripOssScheme p).length ≤ p.length := by
    unfold stripOssScheme
    split
    · simp [List.length_drop]
    · exact le_rfl
  have h2 : (applyEndpointMatch (stripOssScheme p)).length ≤ (stripOssScheme p).length := by
    unfold applyEndpointMatch
    cases hm : matchEndpointUrl (stripOssScheme p) with
    | some q => exact length_matchEndpointUrl_le hm
    | none => exact le_rfl
  unfold strip_protocol
  split
  · simp [root_marker]
  · exact le_trans h2 h1

theorem length_before_last_slash_lt {q : List Char} (h : '/' ∈ q) :
    (before_last_slash q).length < q.length := by
  unfold before_last_slash
  have h1 : (q.reverse.dropWhile (fun c => c ≠ '/')).length ≤ q.length := by
    calc (q.reverse.dropWhile (fun c => c ≠ '/')).length
        ≤ q.reverse.length := (List.dropWhile_sublist _).length_le
      _ = q.length := List.length_reverse _
  have h2 : 1 ≤ q.length := by
    cases q with
    | nil => exact absurd h (by simp)
    | cons a l => simp
  simp only [List.length_reverse, List.length_drop]
  omega

theorem parent_fs_length_lt {p : List Char} (h : p ≠ []) :
    (parent_fs p).length < p.length := by
  unfold parent_fs
  have hs := length_strip_protocol_le p
  have hp : 1 ≤ p.length := by
    cases p with
    | nil => exact absurd rfl h
    | cons a l => simp
  split
  · rename_i hmem
    exact lt_of_lt_of_le (length_before_last_slash_lt hmem) hs
  · simp [root_marker]
    omega

/-- The `while norm_path:` loop of `BaseOSSFileSystem.invalidate_cache`
(base.py lines 180-182): pop the current key and move to its `_parent`.
Because `_parent` strictly shortens a nonempty path, the Python loop
terminates within `length + 1` iterations; the fuel argument (set to that
bound at the call site) makes the definition structurally recursive while
computing the same result. -/
def invalidate_loop : Nat → List Char → DirCache → DirCache
  | 0, _, c => c
  | fuel + 1, n, c => if n = [] then c else invalidate_loop fuel (parent_fs n) (popC n c)

/-- The keys the loop pops: the path and all its iterated `_parent`
ancestors, down to the empty root marker. -/
def pop_chain : Nat → List Char → List (List Char)
  | 0, _ => []
  | fuel + 1, n => if n = [] then [] else n :: pop_chain fuel (parent_fs n)

/-- Embeds `BaseOSSFileSystem.invalidate_cache` (base.py lines 173-182):
`None` clears the whole cache; otherwise the path is protocol-stripped,
leading slashes are removed, the key is popped, and the while loop pops the
key and every iterated `_parent` ancestor. -/
def invalidate_cache (p : Option (List Char)) (c : DirCache) : DirCache :=
  match p with
  | none => []
  | some path =>
    let n := (strip_protocol path).dropWhile (fun ch => ch = '/')
    invalidate_loop (n.length + 1) n (popC n c)

/-- The cache effect shared by every mutating operation of core.py:
`_rm` (line 435), `rm` (line 469), `cp_file` (line 419), `put_file`
(line 529), `pipe_file` (line 610) and `touch` (line 602) all finish with
`self.invalidate_cache(self._parent(path))` on the mutated path. -/
def mutate_invalidate (p : List Char) (c : DirCache) : DirCache :=
  invalidate_cache (some (parent_fs p)) c

theorem getC_cons {κ α : Type} [DecidableEq κ] (k : κ) (e : κ × α) (rest : List (κ × α)) :
    getC k (e :: rest) = if e.1 = k then some e.2 else getC k rest := by
  cases e
  rfl

theorem popC_cons {κ α : Type} [DecidableEq κ] (k : κ) (e : κ × α) (rest : List (κ × α)) :
    popC k (e :: rest) = if e.1 = k then popC k rest else e :: popC k rest := by
  simp only [popC, List.filter_cons]
  by_cases h : e.1 = k
  · simp [h]
  · simp [h]

theorem getC_popC_self {κ α : Type} [DecidableEq κ] (k : κ) (c : List (κ × α)) :
    getC k (popC k c) = none := by
  induction c with
  | nil => rfl
  | cons e rest ih =>
    rw [popC_cons]
    by_cases h : e.1 = k
    · rw [if_pos h]
      exact ih
    · rw [if_neg h, getC_cons, if_neg h]
      exact ih

theorem getC_popC_ne {κ α : Type} [DecidableEq κ] {k' k : κ} (h : k' ≠ k)
    (c : List (κ × α)) : getC k' (popC k c) = getC k' c := by
  induction c with
  | nil => rfl
  | cons e rest ih =>
    rw [popC_cons]
    by_cases he : e.1 = k
    · rw [if_pos he, getC_cons]
      have hne : ¬ e.1 = k' := by
        rw [he]
        exact fun hh => h hh.symm
      rw [if_neg hne]
      exact ih
    · rw [if_neg he, getC_cons, getC_cons]
      by_cases he' : e.1 = k'
      · rw [if_pos he', if_pos he']
      · rw [if_neg he', if_neg he']
        exact ih

theorem invalidate_loop_spec (fuel : Nat) :
    ∀ (n : List Char) (c : DirCache), n.length < fuel →
      (∀ q, q ∈ pop_chain fuel n → getC q (invalidate_loop fuel n c) = none) ∧
      (∀ q, q ∉ pop_chain fuel n → getC q (invalidate_loop fuel n c) = getC q c) := by
  induction fuel with
  | zero => intro n c h; exact absurd h (by omega)
  | succ fuel ih =>
    intro n c hlen
    by_cases hn : n = []
    · subst hn
      constructor
      · intro q hq
        simp [pop_chain] at hq
      · intro q _
        simp [invalidate_loop]
    · have hrec : (parent_fs n).length < fuel :=
        lt_of_lt_of_le (parent_fs_length_lt hn) (by omega)
      obtain ⟨ih1, ih2⟩ := ih (parent_fs n) (popC n c) hrec
      constructor
      · intro q hq
        rw [invalidate_loop, if_neg hn]
        rw [pop_chain, if_neg hn] at hq
        rcases List.mem_cons.mp hq with hq | hq
        · subst hq
          by_cases hin : q ∈ pop_chain fuel (parent_fs q)
          · exact ih1 q hin
          · rw [ih2 q hin]
            exact getC_popC_self q c
        · exact ih1 q hq
      · intro q hq
        rw [invalidate_loop, if_neg hn]
        rw [pop_chain, if_neg hn] at hq
        have hq1 : q ≠ n := fun h => hq (h ▸ List.mem_cons_self _ _)
        have hq2 : q ∉ pop_chain fuel (parent_fs n) := fun h => hq (List.mem_cons_of_mem _ h)
        rw [ih2 q hq2]
        exact getC_popC_ne hq1 c

/-- C6: a mutating operation (write, delete, copy) on path `P` removes the
directory-cache entries of the normalized parent of `P` and of every
iterated ancestor of that parent, and removes nothing else: an entry
disappears only through this explicit invalidation. -/
theorem claim_C6_cache_invalidation (P : List Char) (c : DirCache) :
    (∀ q, q ∈ pop_chain
        (((strip_protocol (parent_fs P)).dropWhile (fun ch => ch = '/')).length + 1)
        ((strip_protocol (parent_fs P)).dropWhile (fun ch => ch = '/')) →
      getC q (mutate_invalidate P c) = none) ∧
    (∀ q, q ∉ pop_chain
        (((strip_protocol (parent_fs P)).dropWhile (fun ch => ch = '/')).length + 1)
        ((strip_protocol (parent_fs P)).dropWhile (fun ch => ch = '/')) →
      q ≠ ((strip_protocol (parent_fs P)).dropWhile (fun ch => ch = '/')) →
      getC q (mutate_invalidate P c) = getC q c) := by
  have hspec := invalidate_loop_spec
    ((((strip_protocol (parent_fs P)).dropWhile (fun ch => ch = '/')).length + 1))
    ((strip_protocol (parent_fs P)).dropWhile (fun ch => ch = '/'))
    (popC ((strip_protocol (parent_fs P)).dropWhile (fun ch => ch = '/')) c)
    (by omega)
  constructor
  · intro q hq
    exact hspec.1 q hq
  · intro q hq hq'
    unfold mutate_invalidate invalidate_cache
    rw [hspec.2 q hq]
    exact getC_popC_ne hq' c

/-- C6 witness: for the mutation path `"bucket/a/b"` with a cache holding
entries for `"bucket/a"` (the parent, a chain member) and `"other"` (not a
chain member), invalidation removes the former and keeps the latter. -/
theorem claim_C6_witness :
    getC "bucket/a".toList
        (mutate_invalidate "bucket/a/b".toList
          [("bucket/a".toList, []), ("other".toList, [])]) = none ∧
      getC "other".toList
        (mutate_invalidate "bucket/a/b".toList
          [("bucket/a".toList, []), ("other".toList, [])]) = some [] :=
  ⟨(claim_C6_cache_invalidation "bucket/a/b".toList
      [("bucket/a".toList, []), ("other".toList, [])]).1 "bucket/a".toList (by decide),
   by
    rw [(claim_C6_cache_invalidation "bucket/a/b".toList
      [("bucket/a".toList, []), ("other".toList, [])]).2 "other".toList (by decide) (by decide)]
    decide⟩

/-- Structural worker for `chunks`: each step emits `lst[i:i+num]` and
advances by `num`, exactly the generator `chunks` nested in
`OSSFileSystem.rm` (core.py lines 462-464).  The Python loop runs
`ceil(len/num)` times, which is at most `len` for the call site value
`num = 1000`; the fuel (set to `len` at the call site) therefore never runs
out before the list is exhausted. -/
def chunks_go {α : Type} : Nat → List α → Nat → List (List α)
  | 0, _, _ => []
  | _ + 1, [], _ => []
  | fuel + 1, a :: l, num => (a :: l).take num :: chunks_go fuel ((a :: l).drop num) num

/-- The `chunks` generator of `OSSFileSystem.rm` (core.py lines 462-464):
consecutive slices of `num` elements. -/
def chunks {α : Type} (l : List α) (num : Nat) : List (List α) :=
  chunks_go l.length l num

/-- Embeds `OSSFileSystem.rm` (core.py lines 437-469) for a single
(non-list) path: the fsspec collaborator call
`self.expand_path(path, recursive=recursive, maxdepth=maxdepth)` is passed
in as `expanded`; `rm` maps every expanded path to its key via `split_path`,
slices the key list in chunks of 1000, issues one
`batch_delete_objects(files, bucket=bucket_name)` backend call per chunk
(first component of the result), and finally runs
`self.invalidate_cache(self._parent(path))` (second component). -/
def rm (path : List Char) (expanded : List (List Char)) (c : DirCache) :
    List (List Char × List (List Char)) × DirCache :=
  let bucket_name := (split_path path).1
  let path_expand := expanded.map (fun f => (split_path f).2)
  ((chunks path_expand 1000).map (fun fs => (bucket_name, fs)),
    invalidate_cache (some (parent_fs path)) c)

theorem chunks_go_flatten {α : Type} (fuel : Nat) :
    ∀ (l : List α) (num : Nat), 1 ≤ num → l.length ≤ fuel →
      (chunks_go fuel l num).flatten = l := by
  induction fuel with
  | zero =>
    intro l num _ hlen
    cases l with
    | nil => simp [chunks_go]
    | cons a t => simp at hlen
  | succ fuel ih =>
    intro l num hnum hlen
    cases l with
    | nil => simp [chunks_go]
    | cons a t =>
      have hdrop : ((a :: t).drop num).length ≤ fuel := by
        simp only [List.length_drop, List.length_cons]
        simp only [List.length_cons] at hlen
        omega
      simp only [chunks_go, List.flatten_cons, ih ((a :: t).drop num) num hnum hdrop]
      exact List.take_append_drop num (a :: t)

theorem chunks_go_length_le {α : Type} (fuel : Nat) :
    ∀ (l : List α) (num : Nat) (b : List α), 1 ≤ num → b ∈ chunks_go fuel l num →
      b.length ≤ num ∧ b ≠ [] := by
  induction fuel with
  | zero => intro l num b _ hb; exact absurd hb (by simp [chunks_go])
  | succ fuel ih =>
    intro l num b hnum hb
    cases l with
    | nil => exact absurd hb (by simp [chunks_go])
    | cons a t =>
      simp only [chunks_go] at hb
      rcases List.mem_cons.mp hb with hb | hb
      · subst hb
        refine ⟨List.length_take_le _ _, ?_⟩
        cases num with
        | zero => omega
        | succ m => simp [List.take_succ_cons]
      · exact ih ((a :: t).drop num) num b hnum hb

/-- C3 counterexample: delete of `"bucket/dir"` whose expansion contains the
key `"bucket/dir/sub/f"`.  The bulk-delete call does carry that key, but the
cache entry of `"bucket/dir/sub"` — the parent of that deleted path — is
still present afterwards: `rm` only invalidates the parent chain of the
requested path, contradicting the claim that the cache is invalidated for
the deleted paths parents. -/
theorem claim_C3_counterexample :
    (rm "bucket/dir".toList ["bucket/dir/sub/f".toList]
        [("bucket/dir/sub".toList, [])]).1
      = [("bucket".toList, ["dir/sub/f".toList])] ∧
    getC "bucket/dir/sub".toList
        (rm "bucket/dir".toList ["bucket/dir/sub/f".toList]
          [("bucket/dir/sub".toList, [])]).2 = some [] := by
  constructor
  · decide
  · decide

/-- C3 amended: a recursive delete whose expansion yields the given paths
partitions their keys into consecutive batches of at most 1000 (none empty),
issues exactly one bulk-delete backend call per batch against the bucket of
the requested path, so that the concatenation of all batches is exactly the
expanded key list; the cache is invalidated for the parent of the requested
path and that parents iterated ancestors (not for the parents of every
deleted key). -/
theorem claim_C3_amended (path : List Char) (expanded : List (List Char))
    (c : DirCache) :
    (((rm path expanded c).1.map (fun call => call.2)).flatten
        = expanded.map (fun f => (split_path f).2)) ∧
    (∀ call, call ∈ (rm path expanded c).1 →
      call.2.length ≤ 1000 ∧ call.2 ≠ [] ∧ call.1 = (split_path path).1) ∧
    (rm path expanded c).2 = invalidate_cache (some (parent_fs path)) c := by
  refine ⟨?_, ?_, rfl⟩
  · show ((chunks (expanded.map (fun f => (split_path f).2)) 1000).map
        (fun fs => ((split_path path).1, fs)) |>.map (fun call => call.2)).flatten
      = expanded.map (fun f => (split_path f).2)
    rw [List.map_map]
    have hid : ((fun call : List Char × List (List Char) => call.2) ∘
        (fun fs => ((split_path path).1, fs))) = id := by
      funext fs
      rfl
    rw [hid, List.map_id]
    exact chunks_go_flatten _ _ 1000 (by omega) le_rfl
  · intro call hcall
    show call.2.length ≤ 1000 ∧ call.2 ≠ [] ∧ call.1 = (split_path path).1
    have hcall' : call ∈ (chunks (expanded.map (fun f => (split_path f).2)) 1000).map
        (fun fs => ((split_path path).1, fs)) := hcall
    obtain ⟨fs, hfs, heq⟩ := List.mem_map.mp hcall'
    obtain ⟨h1, h2⟩ := chunks_go_length_le _ _ 1000 fs (by omega) hfs
    subst heq
    exact ⟨h1, h2, rfl⟩

set_option maxRecDepth 40000 in
/-- C3 witness: a delete expanding to 1500 keys is split into exactly two
batches, of 1000 and 500 keys; the first batch is a member of the issued
calls and satisfies the batching bounds, and the batches concatenate back to
the full key list. -/
theorem claim_C3_witness :
    (rm "bucket/dir".toList (List.replicate 1500 "bucket/dir/f".toList) []).1.length = 2 ∧
    ("bucket".toList, List.replicate 1000 "dir/f".toList)
        ∈ (rm "bucket/dir".toList (List.replicate 1500 "bucket/dir/f".toList) []).1 ∧
    ((List.replicate 1000 "dir/f".toList).length ≤ 1000 ∧
      List.replicate 1000 "dir/f".toList ≠ [] ∧
      ("bucket".toList, List.replicate 1000 "dir/f".toList).1
        = (split_path "bucket/dir".toList).1) ∧
    ((rm "bucket/dir".toList (List.replicate 1500 "bucket/dir/f".toList) []).1.map
        (fun call => call.2)).flatten
      = (List.replicate 1500 "bucket/dir/f".toList).map (fun f => (split_path f).2) := by
  refine ⟨by decide, by decide, ?_, ?_⟩
  · exact (claim_C3_amended "bucket/dir".toList
      (List.replicate 1500 "bucket/dir/f".toList) []).2.1
      ("bucket".toList, List.replicate 1000 "dir/f".toList) (by decide)
  · exact (claim_C3_amended "bucket/dir".toList
      (List.replicate 1500 "bucket/dir/f".toList) []).1

/-- A result that is either a value or a raised exception, with decidable
equality (used both for backend answers and for the Python-level outcome). -/
inductive Res (ε α : Type) where
  | ok : α → Res ε α
  | err : ε → Res ε α
deriving DecidableEq

/-- The oss2 error codes relevant to the embedded code paths
(exceptions.py lines 11-15): `NoSuchBucket`, `NoSuchKey`, `AccessDenied`,
plus a retryable `RequestError` and a catch-all for any other server code. -/
inductive OssCode where
  | accessDenied
  | noSuchBucket
  | noSuchKey
  | requestError
  | otherErr
deriving DecidableEq

/-- An exception as seen by a caller of the Python code: either an
untranslated oss2 exception (`raw`, the form escaping from lazy iterators
such as `oss2.ObjectIterator`, whose requests run outside the `try` of
`_call_oss`), or one of the builtin exceptions produced by
`translate_boto_error`. -/
inductive PyExc where
  | raw : OssCode → PyExc
  | fileNotFound
  | permissionErr
  | ioErr
deriving DecidableEq

/-- Embeds `translate_boto_error` with `ERROR_CODE_TO_EXCEPTION`
(exceptions.py lines 11-56): `NoSuchBucket` and `NoSuchKey` map to
`FileNotFoundError`, `AccessDenied` to `PermissionError`, and any
unrecognized code is wrapped in an `IOError`.  `_call_oss` (core.py line
112) raises this translated exception for every failing non-lazy backend
call. -/
def translate_boto_error : OssCode → PyExc
  | .noSuchBucket => .fileNotFound
  | .noSuchKey => .fileNotFound
  | .accessDenied => .permissionErr
  | .requestError => .ioErr
  | .otherErr => .ioErr

/-- One object record of an `oss2.ObjectIterator` page: its key, its size,
and whether it is a common-prefix (directory) entry (`obj.is_prefix()`). -/
structure ObjInfo where
  key : List Char
  size : Nat
  isDirMark : Bool
deriving DecidableEq

/-- The backend surface used by the embedded sync code paths: each field is
one oss2 call issued through `_call_oss` or iterated lazily.  An `err`
answer models the oss2 exception raised by that call. -/
structure Backend where
  listObjects : List Char → List Char → List Char → Res OssCode (List ObjInfo)
  getBucketInfo : List Char → Res OssCode Unit
  objectExistsQ : List Char → List Char → Res OssCode Bool
  objectMeta : List Char → List Char → Res OssCode Nat
  bucketNames : Res OssCode (List (List Char))

/-- Embeds `_get_object_info_list` (core.py lines 201-235): wrap each record
of the `ObjectIterator` into an fsspec info dict named
`f"{bucket_name}/{obj.key}"`, common prefixes becoming size-0 directory
entries.  The iteration happens outside the `try` of `_call_oss`, so a
failure surfaces as the raw oss2 exception. -/
def get_object_info_list (B : Backend) (bucket_name pfx delim : List Char) :
    Res PyExc (List Entry) :=
  match B.listObjects bucket_name pfx delim with
  | .err e => .err (.raw e)
  | .ok objs => .ok (objs.map (fun o =>
      { name := bucket_name ++ '/' :: o.key
        key := bucket_name ++ '/' :: o.key
        isDir := o.isDirMark
        size := if o.isDirMark then 0 else o.size }))

/-- Python `path.strip("/")`: strip slashes at both ends. -/
def strip_both (s : List Char) : List Char :=
  ((s.dropWhile (fun c => c = '/')).reverse.dropWhile (fun c => c = '/')).reverse

/-- The `if path.startswith("/")` rewriting of `_ls_dir` (core.py lines
263-266): prepend a slash to the `name` and `Key` of every returned info
(the returned list is a deep copy, so cached entries are not affected). -/
def prependSlash (path : List Char) (infos : List Entry) : List Entry :=
  if path.head? = some '/' then
    infos.map (fun i => { i with name := '/' :: i.name, key := '/' :: i.key })
  else infos

/-- Embeds `_ls_dir` (core.py lines 237-267): normalize the path, split it,
and either run an uncached flat or filtered listing (`not delimiter or
prefix`), or serve the standard delimiter listing through the directory
cache, populating it on a miss; a leading slash on the queried path is
prepended to the names of the returned copy. -/
def ls_dir (B : Backend) (path delim : List Char) (pfx : Option (List Char))
    (c : DirCache) : Res PyExc (List Entry × DirCache) :=
  let norm_path := strip_both path
  let bk := split_path norm_path
  let pfx0 := match pfx with
              | none => []
              | some p => p
  if delim = [] ∨ pfx0 ≠ [] then
    match get_object_info_list B bk.1
        (if bk.2 ≠ [] then bk.2 ++ '/' :: pfx0 else pfx0) delim with
    | .err e => .err e
    | .ok infos => .ok (prependSlash path infos, c)
  else
    match getC norm_path c with
    | some infos => .ok (prependSlash path infos, c)
    | none =>
      match get_object_info_list B bk.1
          (if bk.2 ≠ [] then bk.2 ++ ['/'] else []) delim with
      | .err e => .err e
      | .ok infos => .ok (prependSlash path infos, putC norm_path infos c)

/-- Embeds `_ls_object` (core.py lines 167-199): nothing for a bucket-only
or bucketless path; probe the object (`object_exists` through `_call_oss`,
so failures raise translated exceptions); fetch its metadata and return the
single file info. -/
def ls_object (B : Backend) (path : List Char) : Res PyExc (List Entry) :=
  let bk := split_path path
  if bk.2 = [] ∨ bk.1 = [] then .ok []
  else
    match B.objectExistsQ bk.1 bk.2 with
    | .err e => .err (translate_boto_error e)
    | .ok false => .ok []
    | .ok true =>
      match B.objectMeta bk.1 bk.2 with
      | .err e => .err (translate_boto_error e)
      | .ok sz => .ok [{ name := path, key := path, isDir := false, size := sz }]

/-- Embeds `_ls_bucket` (core.py lines 151-165): wrap every bucket of the
lazily iterated `BucketIterator` into a size-0 directory entry. -/
def ls_bucket (B : Backend) : Res PyExc (List Entry) :=
  match B.bucketNames with
  | .err e => .err (.raw e)
  | .ok names => .ok (names.map (fun n =>
      { name := n, key := n, isDir := true, size := 0 }))

/-- Lexicographic comparison of two character lists by code point, the
order Python uses to sort listing names. -/
def chars_le : List Char → List Char → Bool
  | [], _ => true
  | _ :: _, [] => false
  | a :: as, b :: bs => if a = b then chars_le as bs else decide (a.val < b.val)

/-- Embeds `ls` (core.py lines 269-286): for a path with a bucket name, try
`_ls_dir` catching only the raw `oss2.exceptions.AccessDenied` (the only
exception class the `except` clause names, and the raw form is what the
lazy iterator raises) into an empty intermediate listing; when the listing
is empty fall back to `_ls_object`; a bucketless path lists the buckets.
An empty result is returned as is; a non-empty one is sorted by name
(detail form; the non-detail form sorts the same names). -/
def ls (B : Backend) (path : List Char) (c : DirCache) :
    Res PyExc (List Entry × DirCache) :=
  let bk := split_path path
  if bk.1 ≠ [] then
    match ls_dir B path ['/'] none c with
    | .ok (infos, c') =>
      if infos = [] then
        match ls_object B path with
        | .err e => .err e
        | .ok infos2 =>
          if infos2 = [] then .ok (infos2, c')
          else .ok (infos2.mergeSort (fun i j => chars_le i.name j.name), c')
      else .ok (infos.mergeSort (fun i j => chars_le i.name j.name), c')
    | .err (.raw .accessDenied) =>
      match ls_object B path with
      | .err e => .err e
      | .ok infos2 =>
        if infos2 = [] then .ok (infos2, c)
        else .ok (infos2.mergeSort (fun i j => chars_le i.name j.name), c)
    | .err e => .err e
  else
    match ls_bucket B with
    | .err e => .err e
    | .ok infos =>
      if infos = [] then .ok (infos, c)
      else .ok (infos.mergeSort (fun i j => chars_le i.name j.name), c)

/-- Embeds `_directory_exists` (core.py lines 341-344): the path exists as a
directory when `_ls_dir` returns a non-empty listing. -/
def directory_exists (B : Backend) (path : List Char) (c : DirCache) :
    Res PyExc (Bool × DirCache) :=
  match ls_dir B path ['/'] none c with
  | .err e => .err e
  | .ok (r, c') => .ok (decide (r ≠ []), c')

/-- Embeds `_bucket_exist` (core.py lines 346-353): an empty bucket name is
immediately `False`; otherwise probe `get_bucket_info` through `_call_oss`.
The `except oss2.exceptions.OssError` clause of line 351 can never match,
because `_call_oss` (line 112) raises the exception already translated by
`translate_boto_error` into a builtin exception type, so a failing probe
propagates the translated exception instead of returning `False`. -/
def bucket_exist (B : Backend) (bucket_name : List Char) : Res PyExc Bool :=
  if bucket_name = [] then .ok false
  else
    match B.getBucketInfo bucket_name with
    | .ok _ => .ok true
    | .err e => .err (translate_boto_error e)

/-- Embeds `exists` (core.py lines 355-374, named `fs_exists` here because
`exists` is a Lean keyword): split the path, require the bucket probe to
answer `True`, treat a bucket-only path as existing, probe the object
directly, and fall back to the trailing-slash directory listing probe. -/
def fs_exists (B : Backend) (path : List Char) (c : DirCache) :
    Res PyExc (Bool × DirCache) :=
  let bk := split_path path
  match bucket_exist B bk.1 with
  | .err e => .err e
  | .ok false => .ok (false, c)
  | .ok true =>
    if bk.2 = [] then .ok (true, c)
    else
      match B.objectExistsQ bk.1 bk.2 with
      | .err e => .err (translate_boto_error e)
      | .ok true => .ok (true, c)
      | .ok false => directory_exists B path c

/-- A backend with no buckets: every `get_bucket_info` probe fails with
`NoSuchBucket`; every listing is empty and no object exists. -/
def backendNoBuckets : Backend where
  listObjects := fun _ _ _ => .ok []
  getBucketInfo := fun _ => .err .noSuchBucket
  objectExistsQ := fun _ _ => .ok false
  objectMeta := fun _ _ => .ok 0
  bucketNames := .ok []

/-- C1: the claimed algorithm for `exists` fails on the code at two points,
and the repository's own test (tests/func/test_bucket.py, `test_bucket_exists`)
agrees with the claim against the code: (a) the root path yields `False`
(the empty bucket name short-circuits `_bucket_exist`), where the claim and
the test say `True`; (b) a failing container-existence probe raises the
translated `FileNotFoundError` instead of being swallowed into `False`
(the `except oss2.exceptions.OssError` clause never matches the translated
exception raised by `_call_oss`), where the claim and the test say `False`.
This theorem evaluates the embedded code at both failing inputs. -/
theorem claim_C1_exists_code_behavior :
    fs_exists backendNoBuckets "/".toList [] = .ok (false, []) ∧
      fs_exists backendNoBuckets "non-exist-bucket".toList []
        = .err PyExc.fileNotFound := by
  constructor
  · decide
  · decide

/-- A backend whose object listing answers `AccessDenied` (raised raw by the
lazy `ObjectIterator`); bucket probes succeed and no object exists. -/
def backendDenied : Backend where
  listObjects := fun _ _ _ => .err .accessDenied
  getBucketInfo := fun _ => .ok ()
  objectExistsQ := fun _ _ => .ok false
  objectMeta := fun _ _ => .ok 0
  bucketNames := .ok []

/-- A backend whose object listing answers `NoSuchBucket` (raised raw by the
lazy `ObjectIterator`). -/
def backendMissing : Backend where
  listObjects := fun _ _ _ => .err .noSuchBucket
  getBucketInfo := fun _ => .ok ()
  objectExistsQ := fun _ _ => .ok false
  objectMeta := fun _ _ => .ok 0
  bucketNames := .ok []

/-- C5 counterexample: when the backend answers the directory-listing probe
of `ls("bucket/key")` with the not-found error `NoSuchBucket`, `ls` does not
return an empty listing: the raw exception propagates to the caller (the
`except` clause of core.py line 275 only catches `AccessDenied`). -/
theorem claim_C5_counterexample :
    ls backendMissing "bucket/key".toList []
      = .err (PyExc.raw OssCode.noSuchBucket) := by
  decide

theorem ls_dir_default_cachemiss (B : Backend) (path : List Char) (c : DirCache)
    (hmiss : getC (strip_both path) c = none) :
    ls_dir B path ['/'] none c =
      match get_object_info_list B (split_path (strip_both path)).1
          (if (split_path (strip_both path)).2 ≠ []
            then (split_path (strip_both path)).2 ++ ['/'] else []) ['/'] with
      | .err e => .err e
      | .ok infos =>
        .ok (prependSlash path infos, putC (strip_both path) infos c) := by
  unfold ls_dir
  simp only [hmiss]
  norm_num

/-- C5 amended: a permission-denied answer to the directory-listing probe of
`ls` is swallowed into an empty intermediate listing, after which `ls` falls
back to the single-object probe — for a container-only path the final result
is the empty listing; a not-found answer to the same probe is not swallowed
and propagates (raw) to the caller. -/
theorem claim_C5_amended (B1 B2 : Backend) (path : List Char) (c : DirCache)
    (hb : (split_path path).1 ≠ [])
    (hkey : (split_path path).2 = [])
    (hmiss : getC (strip_both path) c = none)
    (hden : B1.listObjects (split_path (strip_both path)).1
        (if (split_path (strip_both path)).2 ≠ []
          then (split_path (strip_both path)).2 ++ ['/'] else []) ['/']
        = .err .accessDenied)
    (hnf : B2.listObjects (split_path (strip_both path)).1
        (if (split_path (strip_both path)).2 ≠ []
          then (split_path (strip_both path)).2 ++ ['/'] else []) ['/']
        = .err .noSuchBucket) :
    ls B1 path c = .ok ([], c) ∧
      ls B2 path c = .err (PyExc.raw OssCode.noSuchBucket) := by
  have hobj : ∀ B : Backend, ls_object B path = .ok [] := by
    intro B
    unfold ls_object
    simp only [hkey]
    norm_num
  have hdir1 : ls_dir B1 path ['/'] none c = .err (.raw .accessDenied) := by
    rw [ls_dir_default_cachemiss B1 path c hmiss]
    unfold get_object_info_list
    rw [hden]
  have hdir2 : ls_dir B2 path ['/'] none c = .err (.raw .noSuchBucket) := by
    rw [ls_dir_default_cachemiss B2 path c hmiss]
    unfold get_object_info_list
    rw [hnf]
  constructor
  · unfold ls
    rw [if_pos hb, hdir1]
    simp [hobj B1]
  · unfold ls
    rw [if_pos hb, hdir2]

/-- C5 witness: the amended behavior at the container-only path `"bucket"`
with an empty cache, against the permission-denied backend and the not-found
backend. -/
theorem claim_C5_witness :
    ls backendDenied "bucket".toList [] = .ok ([], []) ∧
      ls backendMissing "bucket".toList []
        = .err (PyExc.raw OssCode.noSuchBucket) :=
  claim_C5_amended backendDenied backendMissing "bucket".toList []
    (by decide) (by decide) (by decide) (by decide) (by decide)

/-- Failure of one leg of a copy. -/
inductive CpErr where
  | downloadFailed
  | uploadFailed
  | copyFailed
deriving DecidableEq

/-- Embeds `cp_file` (core.py lines 397-419).  When the two buckets differ,
the copy relays through the local temporary file `"." + self.ukey(path1)`:
`get_file` downloads into it, `put_file` uploads it, and `os.remove` deletes
it — three sequential statements with no `try`/`finally`, so an exception in
either leg skips the removal.  Same-bucket copies issue the server-side
`copy_object`.  Both success paths end with
`self.invalidate_cache(self._parent(path2))`; an exception propagates before
it.  The result carries the outcome, whether the temporary file remains on
the local disk afterwards, and the cache.  A failing download leg is
modelled as leaving no temporary file (the SDK may or may not have created a
partial one; the claim is settled on the upload leg, where the completed
download certainly left the file). -/
def cp_file (path1 path2 : List Char) (downloadOk uploadOk copyOk : Bool)
    (c : DirCache) : Res CpErr Unit × Bool × DirCache :=
  if (split_path path1).1 ≠ (split_path path2).1 then
    if downloadOk = false then (.err .downloadFailed, false, c)
    else if uploadOk = false then (.err .uploadFailed, true, c)
    else (.ok (), false, invalidate_cache (some (parent_fs path2)) c)
  else
    if copyOk = false then (.err .copyFailed, false, c)
    else (.ok (), false, invalidate_cache (some (parent_fs path2)) c)

/-- C2 counterexample: a cross-container copy from `"b1/f"` to `"b2/g"`
whose download leg succeeds and whose upload leg raises leaves the temporary
file behind (`os.remove` is skipped), contradicting the claim that the
temporary file is removed in every execution path. -/
theorem claim_C2_counterexample :
    cp_file "b1/f".toList "b2/g".toList true false true []
      = (.err CpErr.uploadFailed, true, []) := by
  decide

/-- C2 amended: a cross-container copy relays through the local temporary
file and removes it only when both legs succeed; if the upload leg raises,
the temporary file remains on disk and the error propagates; if the download
leg raises, the error propagates with the removal equally skipped; a
same-container copy never creates a temporary file. -/
theorem claim_C2_amended (path1 path2 : List Char) (c : DirCache)
    (u d cOk : Bool) (h : (split_path path1).1 ≠ (split_path path2).1) :
    (cp_file path1 path2 true true cOk c).2.1 = false ∧
    cp_file path1 path2 true false cOk c = (.err CpErr.uploadFailed, true, c) ∧
    cp_file path1 path2 false u cOk c = (.err CpErr.downloadFailed, false, c) ∧
    (cp_file path1 path1 d u cOk c).2.1 = false := by
  refine ⟨?_, ?_, ?_, ?_⟩
  · unfold cp_file
    rw [if_pos h]
    norm_num
  · unfold cp_file
    rw [if_pos h]
    norm_num
  · unfold cp_file
    rw [if_pos h]
    norm_num
  · unfold cp_file
    rw [if_neg (by simp)]
    cases cOk <;> cases d <;> cases u <;> norm_num

/-- C2 witness: the amended behavior at the concrete cross-container pair
`"b1/f"`, `"b2/g"`. -/
theorem claim_C2_witness :
    (cp_file "b1/f".toList "b2/g".toList true true true []).2.1 = false ∧
    cp_file "b1/f".toList "b2/g".toList true false true []
      = (.err CpErr.uploadFailed, true, []) ∧
    cp_file "b1/f".toList "b2/g".toList false true true []
      = (.err CpErr.downloadFailed, false, []) ∧
    (cp_file "b1/f".toList "b1/f".toList true true true []).2.1 = false :=
  claim_C2_amended "b1/f".toList "b2/g".toList [] true true true (by decide)

/-- The in-memory object store standing for the bucket contents at the level
of file.py: the full path maps to the object byte content.  Modelled from
the spec: file.py reaches the backend through `self.fs` (spec section 6);
`fs.exists(path)` holds exactly when the store holds the path,
`fs.info(path)["size"]` is the stored length, and `fs.rm_file(path)` removes
the binding. -/
abbrev Store := List (List Char × List Nat)

/-- Embeds `append_object` (core.py lines 553-565) against the store: the
OSS append-at-offset primitive requires `location` to equal the current
object length (a missing object counts as length 0, the append creating
it), extends the content, and returns `result.next_position`; a location
mismatch is a server error surfacing as the translated `IOError`. -/
def append_object (st : Store) (path : List Char) (location : Nat)
    (value : List Nat) : Res PyExc (Store × Nat) :=
  if location = ((getC path st).getD []).length then
    .ok (putC path (((getC path st).getD []) ++ value) st, location + value.length)
  else .err .ioErr

/-- Embeds `OSSFile._upload_chunk` (file.py lines 26-35):
`self.loc = self.fs.append_object(self.path, self.offset,
self.buffer.getvalue())`. -/
def upload_chunk (st : Store) (path : List Char) (offset : Nat)
    (buffer : List Nat) : Res PyExc (Store × Nat) :=
  append_object st path offset buffer

/-- Embeds `OSSFile._initiate_upload` (file.py lines 37-47) for a handle in
the given mode, returning the store and the write cursor `self.loc`: append
mode starts at the existing size (0 when absent); write mode deletes the
existing object (`self.fs.rm_file`) and starts at 0; any other mode leaves
both unchanged. -/
def initiate_upload (mode : List Char) (path : List Char) (st : Store)
    (loc0 : Nat) : Store × Nat :=
  if 'a' ∈ mode then
    (st, if (getC path st).isSome then ((getC path st).getD []).length else 0)
  else if 'w' ∈ mode then
    (if (getC path st).isSome then popC path st else st, 0)
  else (st, loc0)

/-- Modelled from the spec: the fsspec `AbstractBufferedFile` contract (spec
section 6) flushes on close even when nothing was written, first calling
`_initiate_upload` (the upload had not started) and then `_upload_chunk`
with the empty buffer at offset 0. -/
def close_empty_write (mode path : List Char) (st : Store) (loc0 : Nat) :
    Res PyExc (Store × Nat) :=
  upload_chunk (initiate_upload mode path st loc0).1 path 0 []

theorem getC_putC_self {κ α : Type} [DecidableEq κ] (k : κ) (v : α)
    (c : List (κ × α)) : getC k (putC k v c) = some v := by
  unfold putC
  rw [getC_cons]
  simp

theorem getC_putC_ne {κ α : Type} [DecidableEq κ] {k' k : κ} (h : k' ≠ k)
    (v : α) (c : List (κ × α)) : getC k' (putC k v c) = getC k' c := by
  unfold putC
  rw [getC_cons]
  simp only
  rw [if_neg (fun hh => h hh.symm)]
  exact getC_popC_ne h c

/-- C9: opening in write mode on a path whose object already exists makes
upload initiation delete the existing object from the backend and set the
write cursor to 0; consequently, closing such a handle without writing any
bytes still destroys the existing object, leaving an empty object in its
place. -/
theorem claim_C9_write_mode_truncates (path : List Char) (st : Store)
    (old : List Nat) (loc0 : Nat) (h : getC path st = some old) :
    (initiate_upload ['w', 'b'] path st loc0).2 = 0 ∧
    getC path (initiate_upload ['w', 'b'] path st loc0).1 = none ∧
    close_empty_write ['w', 'b'] path st loc0
      = .ok (putC path [] (popC path st), 0) ∧
    getC path (putC path [] (popC path st)) = some [] := by
  have hmode_a : ¬ ('a' ∈ (['w', 'b'] : List Char)) := by decide
  have hmode_w : 'w' ∈ (['w', 'b'] : List Char) := by decide
  have hinit : initiate_upload ['w', 'b'] path st loc0 = (popC path st, 0) := by
    unfold initiate_upload
    rw [if_neg hmode_a, if_pos hmode_w, if_pos (by rw [h]; rfl)]
  refine ⟨by rw [hinit], ?_, ?_, getC_putC_self path [] (popC path st)⟩
  · rw [hinit]
    exact getC_popC_self path st
  · unfold close_empty_write upload_chunk append_object
    rw [hinit]
    simp only [getC_popC_self path st]
    norm_num

/-- C9 witness: the store holding `[1, 2, 3]` at `"bucket/f"`; initiating a
write-mode upload deletes it and sets the cursor to 0, and closing without
writing leaves an empty object. -/
theorem claim_C9_witness :
    (initiate_upload ['w', 'b'] "bucket/f".toList [("bucket/f".toList, [1, 2, 3])] 7).2
        = 0 ∧
    getC "bucket/f".toList
        (initiate_upload ['w', 'b'] "bucket/f".toList
          [("bucket/f".toList, [1, 2, 3])] 7).1 = none ∧
    close_empty_write ['w', 'b'] "bucket/f".toList
        [("bucket/f".toList, [1, 2, 3])] 7
      = .ok (putC "bucket/f".toList []
          (popC "bucket/f".toList [("bucket/f".toList, [1, 2, 3])]), 0) ∧
    getC "bucket/f".toList
        (putC "bucket/f".toList []
          (popC "bucket/f".toList [("bucket/f".toList, [1, 2, 3])])) = some [] :=
  claim_C9_write_mode_truncates "bucket/f".toList
    [("bucket/f".toList, [1, 2, 3])] [1, 2, 3] 7 (by decide)

/-- A heap of Python list objects: references (allocation order numbers) map
to list values; `next` is the next fresh reference.  This models Python
object identity, which the value-level `DirCache` of the other claims
abstracts away: it makes visible whether `_ls_dir` returns the cached list
object itself or a copy. -/
structure Heap where
  cells : List (Nat × List Entry)
  next : Nat

/-- `copy.deepcopy(...)`: allocate a fresh list object with the given value
(core.py line 262). -/
def alloc (h : Heap) (v : List Entry) : Nat × Heap :=
  (h.next, ⟨putC h.next v h.cells, h.next + 1⟩)

/-- In-place mutation of the list object behind a reference (the
`info["name"] = ...` loop writes through the returned reference). -/
def setH (h : Heap) (r : Nat) (v : List Entry) : Heap :=
  ⟨putC r v h.cells, h.next⟩

/-- Embeds the dircache-hit branch of `_ls_dir` (core.py lines 255-266) at
the Python object level: the dircache maps the normalized path to a
reference to a cached list; `infos = copy.deepcopy(self.dircache[norm_path])`
allocates a fresh object carrying the same value, and the
`if path.startswith("/")` loop then rewrites `name` and `Key` in place
through the fresh reference only.  `none` when the path is not cached (the
miss branch queries the backend first, outside this claim). -/
def ls_dir_cached_heap (path : List Char) (cacheRefs : List (List Char × Nat))
    (h : Heap) : Option (Nat × Heap) :=
  match getC (strip_both path) cacheRefs with
  | none => none
  | some r =>
    let v := (getC r h.cells).getD []
    let r2h := alloc h v
    if path.head? = some '/' then
      some (r2h.1, setH r2h.2 r2h.1
        (((getC r2h.1 r2h.2.cells).getD []).map
          (fun i => { i with name := '/' :: i.name, key := '/' :: i.key })))
    else some r2h

/-- C10: serving `_ls_dir` from the cache returns a deep copy: the returned
reference is fresh (distinct from the cached one), the cached object still
carries the original entries after the leading-slash rewriting that `ls`
performs on the returned list, the returned object carries the rewritten
copy, and any further in-place mutation through the returned reference
leaves the cached object unchanged. -/
theorem claim_C10_lsdir_deepcopy (path : List Char)
    (cacheRefs : List (List Char × Nat)) (h : Heap) (r : Nat)
    (entries : List Entry)
    (hq : getC (strip_both path) cacheRefs = some r)
    (hr : getC r h.cells = some entries)
    (hwf : r < h.next) :
    ∃ h2 : Heap,
      ls_dir_cached_heap path cacheRefs h = some (h.next, h2) ∧
      h.next ≠ r ∧
      getC r h2.cells = some entries ∧
      getC h.next h2.cells = some (prependSlash path entries) ∧
      (∀ v', getC r (setH h2 h.next v').cells = some entries) := by
  have hne : h.next ≠ r := by omega
  have hne' : r ≠ h.next := by omega
  unfold ls_dir_cached_heap
  rw [hq]
  simp only [hr, alloc, Option.getD_some]
  by_cases hs : path.head? = some '/'
  · rw [if_pos hs]
    refine ⟨_, rfl, hne, ?_, ?_, ?_⟩
    · unfold setH
      simp only
      rw [getC_putC_ne hne', getC_putC_ne hne']
      exact hr
    · unfold setH
      simp only
      rw [getC_putC_self, getC_putC_self]
      simp only [Option.getD_some]
      unfold prependSlash
      rw [if_pos hs]
    · intro v'
      unfold setH
      simp only
      rw [getC_putC_ne hne', getC_putC_ne hne', getC_putC_ne hne']
      exact hr
  · rw [if_neg hs]
    refine ⟨_, rfl, hne, ?_, ?_, ?_⟩
    · simp only
      rw [getC_putC_ne hne']
      exact hr
    · simp only
      rw [getC_putC_self]
      unfold prependSlash
      rw [if_neg hs]
    · intro v'
      unfold setH
      simp only
      rw [getC_putC_ne hne', getC_putC_ne hne']
      exact hr

/-- C10 witness: a one-entry cache for the queried path `"/bucket/dir"`
pointing at reference 0 in a one-cell heap; the hit returns fresh reference
1 carrying the slash-rewritten copy while cell 0 keeps the original
entries, also after one more mutation through reference 1. -/
theorem claim_C10_witness :
    ∃ h2 : Heap,
      ls_dir_cached_heap "/bucket/dir".toList [("bucket/dir".toList, 0)]
          ⟨[(0, [⟨"bucket/dir/a".toList, "bucket/dir/a".toList, false, 3⟩])], 1⟩
        = some (1, h2) ∧
      (1 : Nat) ≠ 0 ∧
      getC 0 h2.cells
        = some [⟨"bucket/dir/a".toList, "bucket/dir/a".toList, false, 3⟩] ∧
      getC 1 h2.cells
        = some (prependSlash "/bucket/dir".toList
            [⟨"bucket/dir/a".toList, "bucket/dir/a".toList, false, 3⟩]) ∧
      (∀ v', getC 0 (setH h2 1 v').cells
        = some [⟨"bucket/dir/a".toList, "bucket/dir/a".toList, false, 3⟩]) :=
  claim_C10_lsdir_deepcopy "/bucket/dir".toList [("bucket/dir".toList, 0)]
    ⟨[(0, [⟨"bucket/dir/a".toList, "bucket/dir/a".toList, false, 3⟩])], 1⟩ 0
    [⟨"bucket/dir/a".toList, "bucket/dir/a".toList, false, 3⟩]
    (by decide) (by decide) (by decide)
